import Mathlib

/-!
Verification development for the gas-watcher registry of
`discord-stock-ticker` (`gas_request.go`).

The Go source is shallowly embedded: the manager's in-memory map
`WatchingGas` becomes an association list, the `prometheus` gauge
`gasCount` an integer field, the `*sql.DB` handle an `Option DBState`
over a list of rows, and each HTTP handler a pure function from its
decoded inputs and the current state to a response and a new state.
Fallible external steps (body read, JSON decode, each database call,
response encoding) are driven by explicit outcome parameters so that
every error path of the source is reachable in the model.
-/

set_option autoImplicit false

namespace GasReq

/-- Embedding of Go's `strings.ToUpper`: upper-case every character
(faithful on ASCII, which is also where Lean's `Char.toUpper` acts). -/
def goToUpper (s : String) : String :=
  ⟨s.data.map Char.toUpper⟩

/-- Struct `GasRequest` (gas_request.go lines 14-19): the decoded JSON body of a
create request.  Field names follow the Go struct; `Token` carries the
`discord_bot_token` credential.  The `default:"60"` struct tag on
`Frequency` is inert in `encoding/json`, so decoding an absent field
yields the zero value `0`. -/
structure GasRequest where
  Network : String
  Token : String
  Nickname : Bool
  Frequency : Int
  deriving DecidableEq, Repr

/-- The `Gas` domain entity. Modelled from the spec: the `Gas` struct and
`NewGas` live in `gas.go`, which is absent from the sources; the fields
here are the ones `gas_request.go` reads (`Network`, `Nickname`,
`Frequency`, and the unexported credential `token`). -/
structure Gas where
  Network : String
  token : String
  Nickname : Bool
  Frequency : Int
  deriving DecidableEq, Repr

/-- Modelled from the spec: `NewGas` (in the absent `gas.go`) constructs
the domain entity.  The spec states the key is case-normalized
upper-case ("`key` (unique identifier, case-normalized upper-case)")
and that "`frequencySeconds` defaults to 60 when unset/zero". -/
def NewGas (network token : String) (nickname : Bool) (frequency : Int) : Gas :=
  { Network := goToUpper network
    token := token
    Nickname := nickname
    Frequency := if frequency = 0 then 60 else frequency }

/-- The externally serialized form of a `Gas`.  Go's `encoding/json`
never emits unexported fields, so the lower-case `token` field (visible
as `gas.token` in gas_request.go lines 120 and 142) is excluded; the
exported fields are emitted. -/
structure GasView where
  network : String
  nickname : Bool
  frequency : Int
  deriving DecidableEq, Repr

/-- Encoding `json.NewEncoder(w).Encode(gas)`: serialize the exported fields. -/
def encodeGas (g : Gas) : GasView :=
  { network := g.Network, nickname := g.Nickname, frequency := g.Frequency }

/-- One row of the `gases` table: columns `id` (store-assigned, nonzero),
`token`, `nickname`, `network`, `frequency`. -/
structure DBRow where
  id : Nat
  token : String
  nickname : Bool
  network : String
  frequency : Int
  deriving DecidableEq, Repr

/-- The backing store: the rows of the `gases` table together with the
next store-assigned id (store-assigned ids are positive and fresh). -/
structure DBState where
  rows : List DBRow
  nextId : Nat
  deriving DecidableEq, Repr

/-- Store well-formedness: every row id is positive and below `nextId`,
and row ids are pairwise distinct. -/
def DBState.wf (db : DBState) : Prop :=
  (∀ r ∈ db.rows, 0 < r.id ∧ r.id < db.nextId) ∧ (db.rows.map DBRow.id).Nodup

instance (db : DBState) : Decidable db.wf := by
  unfold DBState.wf; infer_instance

/-- Outcome switches for the fallible database calls inside `addGas`:
`Prepare` of the select, `Query`, `Scan`, `Prepare` of the write,
`Exec`, and `LastInsertId`.  `true` means that call returns an error. -/
structure DBFaults where
  prepareSelectErr : Bool
  queryErr : Bool
  scanErr : Bool
  prepareWriteErr : Bool
  execErr : Bool
  lastInsertErr : Bool
  deriving DecidableEq, Repr

/-- All database calls succeed. -/
def noFaults : DBFaults :=
  ⟨false, false, false, false, false, false⟩

/-- The persistence step of `addGas` (gas_request.go lines 87-153), run
when the store handle is non-nil: `SELECT id FROM gases WHERE network =
? LIMIT 1`, scan into `existingId` (zero-initialised), then either
`UPDATE gases SET token, nickname, network, frequency WHERE id =
existingId` or `INSERT INTO gases(token, nickname, network, frequency)`.
Every error logs and returns, leaving the store as it was; the
`LastInsertId` error occurs after the write has executed. -/
def persistGas (f : DBFaults) (gas : Gas) (db : DBState) : DBState :=
  if f.prepareSelectErr then db
  else if f.queryErr then db
  else
    let found := db.rows.find? fun r => r.network = gas.Network
    if f.scanErr && found.isSome then db
    else
      let existingId := match found with
        | some row => row.id
        | none => 0
      if existingId ≠ 0 then
        if f.prepareWriteErr then db
        else if f.execErr then db
        else
          { db with rows := db.rows.map fun r =>
              if r.id = existingId then
                { r with token := gas.token, nickname := gas.Nickname
                         network := gas.Network, frequency := gas.Frequency }
              else r }
      else
        if f.prepareWriteErr then db
        else if f.execErr then db
        else
          { rows := db.rows ++
              [{ id := db.nextId, token := gas.token, nickname := gas.Nickname
                 network := gas.Network, frequency := gas.Frequency }]
            nextId := db.nextId + 1 }

/-- Lookup in the `WatchingGas` map (Go map indexing). -/
def mapLookup (m : List (String × Gas)) (k : String) : Option Gas :=
  (m.find? fun p => p.1 = k).map Prod.snd

/-- Membership test `_, ok := m[k]`. -/
def mapContains (m : List (String × Gas)) (k : String) : Bool :=
  (m.find? fun p => p.1 = k).isSome

/-- Go map assignment `m[k] = v`: replace the binding if present,
otherwise add it. -/
def mapInsert (m : List (String × Gas)) (k : String) (v : Gas) :
    List (String × Gas) :=
  if mapContains m k then
    m.map fun p => if p.1 = k then (k, v) else p
  else
    m ++ [(k, v)]

/-- Go `delete(m, k)`. -/
def mapErase (m : List (String × Gas)) (k : String) : List (String × Gas) :=
  m.filter fun p => p.1 ≠ k

/-- The manager's state: the `WatchingGas` map, the `*sql.DB` handle
(`none` models a nil handle), and the process-wide `gasCount` gauge. -/
structure Manager where
  WatchingGas : List (String × Gas)
  DB : Option DBState
  gasCount : Int
  deriving DecidableEq, Repr

/-- Outcome of reading and JSON-decoding the request body:
`ioutil.ReadAll` failure, `json.Unmarshal` failure on a malformed body,
or a decoded `GasRequest`. -/
inductive ReadBody where
  | readErr
  | malformed
  | ok (req : GasRequest)
  deriving DecidableEq, Repr

/-- A response body: the created entry (create) or the key-to-entry
mapping (list). -/
inductive RespBody where
  | entry (v : GasView)
  | mapping (vs : List (String × GasView))
  deriving DecidableEq, Repr

/-- An HTTP response: `status` is the first `WriteHeader` call
(`net/http` ignores subsequent calls), `body` the serialized body if
encoding succeeded. -/
structure HttpOut where
  status : Nat
  body : Option RespBody
  deriving DecidableEq, Repr

/-- Method `addGas` (gas_request.go lines 77-154): increment the gauge, insert
the entry into the map under `gas.Network`, then — only when the store
handle is non-nil — run the persistence step, whose errors are logged
and swallowed. -/
def Manager.addGas (f : DBFaults) (m : Manager) (gas : Gas) : Manager :=
  let m := { m with gasCount := m.gasCount + 1
                    WatchingGas := mapInsert m.WatchingGas gas.Network gas }
  match m.DB with
  | none => m
  | some db => { m with DB := some (persistGas f gas db) }

/-- Handler `AddGas` (gas_request.go lines 22-75): read body (500 on failure),
decode (500 on failure), require `discord_bot_token` (400), require
`network` (400), reject an already-watched upper-cased network (409);
otherwise build the entry with `NewGas`, commit via `addGas`, and
respond 200 with the encoded entry.  `encodeOk = false` models a
failing `Encode`, after which the handler only logs and issues a
superfluous second `WriteHeader`. -/
def Manager.AddGas (rb : ReadBody) (encodeOk : Bool) (f : DBFaults)
    (m : Manager) : HttpOut × Manager :=
  match rb with
  | .readErr => (⟨500, none⟩, m)
  | .malformed => (⟨500, none⟩, m)
  | .ok req =>
    if req.Token = "" then (⟨400, none⟩, m)
    else if req.Network = "" then (⟨400, none⟩, m)
    else if mapContains m.WatchingGas (goToUpper req.Network) then
      (⟨409, none⟩, m)
    else
      let gas := NewGas req.Network req.Token req.Nickname req.Frequency
      let m := m.addGas f gas
      if encodeOk then (⟨200, some (.entry (encodeGas gas))⟩, m)
      else (⟨200, none⟩, m)

/-- Observable side effects of a delete, in program order. -/
inductive Event where
  | shutdownSignal (network : String)
  | mapRemove (key : String)
  deriving DecidableEq, Repr

/-- Handler `DeleteGas` (gas_request.go lines 157-180): upper-case the path
`id`; 404 if it is not in the map; otherwise call the entry's
`Shutdown()`, decrement the gauge, remove the map entry, respond 204.
The event list records the `Shutdown` signal and the removal in the
order the code performs them. -/
def Manager.DeleteGas (pathId : String) (m : Manager) :
    HttpOut × Manager × List Event :=
  let id := goToUpper pathId
  match mapLookup m.WatchingGas id with
  | none => (⟨404, none⟩, m, [])
  | some g =>
    (⟨204, none⟩,
     { m with gasCount := m.gasCount - 1
              WatchingGas := mapErase m.WatchingGas id },
     [.shutdownSignal g.Network, .mapRemove id])

/-- The body of the list response: the map with each entry serialized
through `encodeGas` (unexported `token` excluded). -/
def listBody (m : Manager) : List (String × GasView) :=
  m.WatchingGas.map fun p => (p.1, encodeGas p.2)

/-- Handler `GetGas` (gas_request.go lines 183-191): respond 200 with the
serialized map. -/
def Manager.GetGas (m : Manager) : HttpOut :=
  ⟨200, some (.mapping (listBody m))⟩

/-- The manager at process start: empty map, zero gauge, a store handle
as configured. -/
def initManager (db : Option DBState) : Manager :=
  { WatchingGas := [], DB := db, gasCount := 0 }

/-- One API operation, with the environment outcomes it depends on. -/
inductive Op where
  | add (rb : ReadBody) (encodeOk : Bool) (f : DBFaults)
  | del (pathId : String)
  | list
  deriving Repr

/-- Apply one operation to the manager state. -/
def step (m : Manager) (o : Op) : Manager :=
  match o with
  | .add rb enc f => (Manager.AddGas rb enc f m).2
  | .del pid => (Manager.DeleteGas pid m).2.1
  | .list => m

/-- Run a sequence of operations from a start state. -/
def run (m : Manager) (os : List Op) : Manager :=
  os.foldl step m

/-- States reachable from process start by any sequence of API calls. -/
inductive Reachable : Manager → Prop where
  | init (db : Option DBState) : Reachable (initManager db)
  | next (m : Manager) (o : Op) : Reachable m → Reachable (step m o)

/-- The map keys are pairwise distinct after upper-case normalization. -/
def upperKeysNodup (w : List (String × Gas)) : Prop :=
  (w.map fun p => goToUpper p.1).Nodup

/-- Strengthened invariant: every stored key is already upper-case, and
the keys are pairwise distinct. -/
def goodKeys (w : List (String × Gas)) : Prop :=
  (∀ p ∈ w, goToUpper p.1 = p.1) ∧ (w.map Prod.fst).Nodup

end GasReq

namespace GasReq

/-! ## Basic lemmas about upper-casing and the map operations -/

theorem char_toNat_ofNat (m : Nat) (h : m.isValidChar) : (Char.ofNat m).toNat = m := by
  simp [Char.ofNat, dif_pos h, Char.ofNatAux, Char.toNat]
  rfl

theorem char_toUpper_idem (c : Char) : c.toUpper.toUpper = c.toUpper := by
  unfold Char.toUpper
  by_cases h : c.toNat ≥ 97 ∧ c.toNat ≤ 122
  · rw [if_pos h]
    have hv : (c.toNat - 32).isValidChar := Or.inl (by omega)
    have ht : (Char.ofNat (c.toNat - 32)).toNat = c.toNat - 32 := char_toNat_ofNat _ hv
    rw [if_neg (by rw [ht]; omega)]
  · rw [if_neg h, if_neg h]

theorem goToUpper_idem (s : String) : goToUpper (goToUpper s) = goToUpper s := by
  show String.mk ((s.data.map Char.toUpper).map Char.toUpper) = String.mk (s.data.map Char.toUpper)
  rw [List.map_map]
  congr 1
  apply List.map_congr_left
  intro c _
  exact char_toUpper_idem c

theorem find?_eq_none_of_contains_false (m : List (String × Gas)) (k : String)
    (h : mapContains m k = false) : m.find? (fun p => p.1 = k) = none := by
  unfold mapContains at h
  cases hf : m.find? (fun p => p.1 = k) with
  | none => rfl
  | some p => rw [hf] at h; simp at h

theorem mapContains_eq_isSome (m : List (String × Gas)) (k : String) :
    mapContains m k = (mapLookup m k).isSome := by
  simp [mapContains, mapLookup]

theorem mapInsert_not_mem (m : List (String × Gas)) (k : String) (v : Gas)
    (h : mapContains m k = false) : mapInsert m k v = m ++ [(k, v)] := by
  simp [mapInsert, h]

theorem mapLookup_append_single (m : List (String × Gas)) (k : String) (v : Gas)
    (h : mapContains m k = false) : mapLookup (m ++ [(k, v)]) k = some v := by
  simp [mapLookup, List.find?_append, find?_eq_none_of_contains_false m k h]

theorem find?_mapErase (m : List (String × Gas)) (k : String) :
    (mapErase m k).find? (fun p => p.1 = k) = none := by
  rw [List.find?_eq_none]
  intro x hx
  simp [mapErase, List.mem_filter] at hx
  simp [hx.2]

theorem mapLookup_erase (m : List (String × Gas)) (k : String) :
    mapLookup (mapErase m k) k = none := by
  simp [mapLookup, find?_mapErase]

theorem not_mem_keys_of_contains_false (w : List (String × Gas)) (k : String)
    (h : mapContains w k = false) : k ∉ w.map Prod.fst := by
  intro hk
  obtain ⟨p, hp, hpk⟩ := List.mem_map.mp hk
  have hnone := find?_eq_none_of_contains_false w k h
  rw [List.find?_eq_none] at hnone
  exact hnone p hp (by simp [hpk])

/-! ## Reduction lemmas for the handlers -/

@[simp] theorem NewGas_Network (n t : String) (nk : Bool) (fr : Int) :
    (NewGas n t nk fr).Network = goToUpper n := rfl

@[simp] theorem NewGas_token (n t : String) (nk : Bool) (fr : Int) :
    (NewGas n t nk fr).token = t := rfl

@[simp] theorem NewGas_Nickname (n t : String) (nk : Bool) (fr : Int) :
    (NewGas n t nk fr).Nickname = nk := rfl

@[simp] theorem NewGas_Frequency (n t : String) (nk : Bool) (fr : Int) :
    (NewGas n t nk fr).Frequency = if fr = 0 then 60 else fr := rfl

@[simp] theorem addGas_WatchingGas (f : DBFaults) (m : Manager) (gas : Gas) :
    (m.addGas f gas).WatchingGas = mapInsert m.WatchingGas gas.Network gas := by
  unfold Manager.addGas; cases m.DB <;> simp

@[simp] theorem addGas_gasCount (f : DBFaults) (m : Manager) (gas : Gas) :
    (m.addGas f gas).gasCount = m.gasCount + 1 := by
  unfold Manager.addGas; cases m.DB <;> simp

@[simp] theorem addGas_DB (f : DBFaults) (m : Manager) (gas : Gas) :
    (m.addGas f gas).DB = m.DB.map (persistGas f gas) := by
  unfold Manager.addGas; cases hdb : m.DB <;> simp [hdb]

theorem AddGas_success (req : GasRequest) (m : Manager) (enc : Bool) (f : DBFaults)
    (ht : req.Token ≠ "") (hn : req.Network ≠ "")
    (habs : mapContains m.WatchingGas (goToUpper req.Network) = false) :
    Manager.AddGas (.ok req) enc f m =
      ((if enc then
          ⟨200, some (.entry (encodeGas (NewGas req.Network req.Token req.Nickname req.Frequency)))⟩
        else ⟨200, none⟩ : HttpOut),
       m.addGas f (NewGas req.Network req.Token req.Nickname req.Frequency)) := by
  simp only [Manager.AddGas, if_neg ht, if_neg hn, habs, Bool.false_eq_true, if_false]
  cases enc <;> rfl

theorem listBody_addGas (f : DBFaults) (m : Manager) (gas : Gas)
    (h : mapContains m.WatchingGas gas.Network = false) :
    listBody (m.addGas f gas) = listBody m ++ [(gas.Network, encodeGas gas)] := by
  simp [listBody, mapInsert_not_mem _ _ _ h]

end GasReq

namespace GasReq

/-! ## Claim theorems -/

/-- C2: a create request with an empty credential or an empty key is
answered 400, and one whose upper-cased key is already watched is
answered 409; in every such case the handler returns before any
mutation, so the whole manager state (map, entries, counter, store) is
unchanged. -/
theorem AddGas_reject_no_mutation (req : GasRequest) (m : Manager) (enc : Bool) (f : DBFaults)
    (h : req.Token = "" ∨ req.Network = "" ∨
         mapContains m.WatchingGas (goToUpper req.Network) = true) :
    (Manager.AddGas (.ok req) enc f m).2 = m ∧
    ((req.Token = "" ∨ req.Network = "") →
      (Manager.AddGas (.ok req) enc f m).1.status = 400) ∧
    (req.Token ≠ "" → req.Network ≠ "" →
      (Manager.AddGas (.ok req) enc f m).1.status = 409) := by
  by_cases h1 : req.Token = ""
  · simp [Manager.AddGas, h1]
  · by_cases h2 : req.Network = ""
    · simp [Manager.AddGas, h1, h2]
    · have h3 : mapContains m.WatchingGas (goToUpper req.Network) = true := by
        rcases h with h | h | h
        · exact absurd h h1
        · exact absurd h h2
        · exact h
      simp [Manager.AddGas, h1, h2, h3]

/-- Witness for C2 at the concrete request `{network := "eth", token := ""}`. -/
theorem AddGas_reject_no_mutation_witness :
    (Manager.AddGas (.ok ⟨"eth", "", true, 0⟩) true noFaults (initManager none)).2
        = initManager none ∧
    ((GasRequest.mk "eth" "" true 0).Token = "" ∨ (GasRequest.mk "eth" "" true 0).Network = "" →
      (Manager.AddGas (.ok ⟨"eth", "", true, 0⟩) true noFaults (initManager none)).1.status = 400) ∧
    ((GasRequest.mk "eth" "" true 0).Token ≠ "" → (GasRequest.mk "eth" "" true 0).Network ≠ "" →
      (Manager.AddGas (.ok ⟨"eth", "", true, 0⟩) true noFaults (initManager none)).1.status = 409) :=
  AddGas_reject_no_mutation ⟨"eth", "", true, 0⟩ (initManager none) true noFaults (Or.inl rfl)

/-- C3 counterexample: on a malformed body the handler answers 500
(`http.StatusInternalServerError`, gas_request.go line 40), not 400 as
claimed. -/
theorem AddGas_malformed_counterexample :
    (Manager.AddGas ReadBody.malformed true noFaults (initManager none)).1.status ≠ 400 := by
  decide

/-- C3 (amended): a create request whose body fails to decode as a
`GasRequest` is answered 500 and causes no mutation. -/
theorem AddGas_malformed_500 (m : Manager) (enc : Bool) (f : DBFaults) :
    (Manager.AddGas ReadBody.malformed enc f m).1.status = 500 ∧
    (Manager.AddGas ReadBody.malformed enc f m).2 = m :=
  ⟨rfl, rfl⟩

/-- C7: a create request that passes decoding, validation and the
uniqueness check is answered 200 and the entry is committed to the map
(hence appears in the list body) for every store configuration and every
fault pattern of the persistence step; a nil store handle stays nil. -/
theorem AddGas_success_commits (req : GasRequest) (m : Manager) (enc : Bool) (f : DBFaults)
    (ht : req.Token ≠ "") (hn : req.Network ≠ "")
    (habs : mapContains m.WatchingGas (goToUpper req.Network) = false) :
    (Manager.AddGas (.ok req) enc f m).1.status = 200 ∧
    mapLookup (Manager.AddGas (.ok req) enc f m).2.WatchingGas (goToUpper req.Network)
      = some (NewGas req.Network req.Token req.Nickname req.Frequency) ∧
    listBody (Manager.AddGas (.ok req) enc f m).2 =
      listBody m ++ [(goToUpper req.Network,
        encodeGas (NewGas req.Network req.Token req.Nickname req.Frequency))] ∧
    (Manager.AddGas (.ok req) enc f m).2.gasCount = m.gasCount + 1 ∧
    (m.DB = none → (Manager.AddGas (.ok req) enc f m).2.DB = none) := by
  rw [AddGas_success req m enc f ht hn habs]
  refine ⟨by cases enc <;> rfl, ?_, ?_, by simp, ?_⟩
  · simp [mapInsert_not_mem _ _ _ habs, mapLookup_append_single _ _ _ habs]
  · exact listBody_addGas f m _ (by simpa using habs)
  · intro hdb; simp [hdb]

/-- Witness for C7 at the concrete request `{network := "eth", token := "abc"}`
with no store configured and all fault switches set. -/
theorem AddGas_success_commits_witness :
    (Manager.AddGas (.ok ⟨"eth", "abc", true, 0⟩) true ⟨true, true, true, true, true, true⟩
        (initManager none)).1.status = 200 ∧
    mapLookup (Manager.AddGas (.ok ⟨"eth", "abc", true, 0⟩) true ⟨true, true, true, true, true, true⟩
        (initManager none)).2.WatchingGas (goToUpper "eth")
      = some (NewGas "eth" "abc" true 0) ∧
    listBody (Manager.AddGas (.ok ⟨"eth", "abc", true, 0⟩) true ⟨true, true, true, true, true, true⟩
        (initManager none)).2 =
      listBody (initManager none) ++ [(goToUpper "eth", encodeGas (NewGas "eth" "abc" true 0))] ∧
    (Manager.AddGas (.ok ⟨"eth", "abc", true, 0⟩) true ⟨true, true, true, true, true, true⟩
        (initManager none)).2.gasCount = (initManager none).gasCount + 1 ∧
    ((initManager none).DB = none →
      (Manager.AddGas (.ok ⟨"eth", "abc", true, 0⟩) true ⟨true, true, true, true, true, true⟩
        (initManager none)).2.DB = none) :=
  AddGas_success_commits ⟨"eth", "abc", true, 0⟩ (initManager none) true
    ⟨true, true, true, true, true, true⟩ (by decide) (by decide) (by decide)

end GasReq

namespace GasReq

/-- C8: a successful create whose `frequency` field is zero (the decoded
value of an unset field) stores an entry whose frequency is 60. -/
theorem AddGas_frequency_default (req : GasRequest) (m : Manager) (enc : Bool) (f : DBFaults)
    (hf : req.Frequency = 0) (ht : req.Token ≠ "") (hn : req.Network ≠ "")
    (habs : mapContains m.WatchingGas (goToUpper req.Network) = false) :
    (mapLookup (Manager.AddGas (.ok req) enc f m).2.WatchingGas
        (goToUpper req.Network)).map Gas.Frequency = some 60 := by
  rw [AddGas_success req m enc f ht hn habs]
  simp [mapInsert_not_mem _ _ _ habs, mapLookup_append_single _ _ _ habs, hf]

/-- Witness for C8 at the concrete request `{network := "eth", token := "abc",
frequency := 0}`. -/
theorem AddGas_frequency_default_witness :
    (mapLookup (Manager.AddGas (.ok ⟨"eth", "abc", true, 0⟩) true noFaults
        (initManager none)).2.WatchingGas (goToUpper "eth")).map Gas.Frequency = some 60 :=
  AddGas_frequency_default ⟨"eth", "abc", true, 0⟩ (initManager none) true noFaults
    rfl (by decide) (by decide) (by decide)

/-- C10: when response encoding fails after a successful registration,
the registration stands — the key is in the map and the counter stays
incremented — and an identical create afterwards is answered 409 with no
state change. -/
theorem AddGas_encode_fail_no_rollback (req : GasRequest) (m : Manager)
    (f f2 : DBFaults) (enc2 : Bool)
    (ht : req.Token ≠ "") (hn : req.Network ≠ "")
    (habs : mapContains m.WatchingGas (goToUpper req.Network) = false) :
    mapContains (Manager.AddGas (.ok req) false f m).2.WatchingGas
      (goToUpper req.Network) = true ∧
    (Manager.AddGas (.ok req) false f m).2.gasCount = m.gasCount + 1 ∧
    (Manager.AddGas (.ok req) enc2 f2 (Manager.AddGas (.ok req) false f m).2).1.status = 409 ∧
    (Manager.AddGas (.ok req) enc2 f2 (Manager.AddGas (.ok req) false f m).2).2
      = (Manager.AddGas (.ok req) false f m).2 := by
  have hcon : mapContains (Manager.AddGas (.ok req) false f m).2.WatchingGas
      (goToUpper req.Network) = true := by
    rw [AddGas_success req m false f ht hn habs, mapContains_eq_isSome]
    simp [mapInsert_not_mem _ _ _ habs, mapLookup_append_single _ _ _ habs]
  refine ⟨hcon, ?_, ?_, ?_⟩
  · rw [AddGas_success req m false f ht hn habs]; simp
  all_goals
    generalize hg : (Manager.AddGas (.ok req) false f m).2 = m1 at hcon ⊢
    simp [Manager.AddGas, ht, hn, hcon]

/-- Witness for C10 at the concrete request `{network := "eth", token := "abc"}`. -/
theorem AddGas_encode_fail_no_rollback_witness :
    mapContains (Manager.AddGas (.ok ⟨"eth", "abc", true, 0⟩) false noFaults
      (initManager none)).2.WatchingGas (goToUpper "eth") = true ∧
    (Manager.AddGas (.ok ⟨"eth", "abc", true, 0⟩) false noFaults
      (initManager none)).2.gasCount = (initManager none).gasCount + 1 ∧
    (Manager.AddGas (.ok ⟨"eth", "abc", true, 0⟩) true noFaults
      (Manager.AddGas (.ok ⟨"eth", "abc", true, 0⟩) false noFaults
        (initManager none)).2).1.status = 409 ∧
    (Manager.AddGas (.ok ⟨"eth", "abc", true, 0⟩) true noFaults
      (Manager.AddGas (.ok ⟨"eth", "abc", true, 0⟩) false noFaults
        (initManager none)).2).2
      = (Manager.AddGas (.ok ⟨"eth", "abc", true, 0⟩) false noFaults
        (initManager none)).2 :=
  AddGas_encode_fail_no_rollback ⟨"eth", "abc", true, 0⟩ (initManager none)
    noFaults noFaults true (by decide) (by decide) (by decide)

end GasReq

namespace GasReq

theorem DeleteGas_found (pid : String) (m : Manager) (g : Gas)
    (h : mapLookup m.WatchingGas (goToUpper pid) = some g) :
    Manager.DeleteGas pid m =
      (⟨204, none⟩,
       { m with gasCount := m.gasCount - 1
                WatchingGas := mapErase m.WatchingGas (goToUpper pid) },
       [.shutdownSignal g.Network, .mapRemove (goToUpper pid)]) := by
  simp only [Manager.DeleteGas, h]

theorem DeleteGas_missing (pid : String) (m : Manager)
    (h : mapLookup m.WatchingGas (goToUpper pid) = none) :
    Manager.DeleteGas pid m = (⟨404, none⟩, m, []) := by
  simp only [Manager.DeleteGas, h]

/-- C1: a key added through a successful create (in any casing) is found
by a subsequent delete whose path id is any casing of that key: the
delete answers 204 and removes the entry. -/
theorem AddGas_then_DeleteGas_any_casing (req : GasRequest) (d : String) (m : Manager)
    (enc : Bool) (f : DBFaults)
    (ht : req.Token ≠ "") (hn : req.Network ≠ "")
    (habs : mapContains m.WatchingGas (goToUpper req.Network) = false)
    (hd : goToUpper d = goToUpper req.Network) :
    (Manager.AddGas (.ok req) enc f m).1.status = 200 ∧
    (Manager.DeleteGas d (Manager.AddGas (.ok req) enc f m).2).1.status = 204 ∧
    mapContains (Manager.DeleteGas d (Manager.AddGas (.ok req) enc f m).2).2.1.WatchingGas
      (goToUpper req.Network) = false := by
  have hlook : mapLookup (Manager.AddGas (.ok req) enc f m).2.WatchingGas (goToUpper d)
      = some (NewGas req.Network req.Token req.Nickname req.Frequency) := by
    rw [AddGas_success req m enc f ht hn habs, hd]
    simp [mapInsert_not_mem _ _ _ habs, mapLookup_append_single _ _ _ habs]
  rw [DeleteGas_found d _ _ hlook]
  refine ⟨?_, rfl, ?_⟩
  · rw [AddGas_success req m enc f ht hn habs]; cases enc <;> rfl
  · rw [mapContains_eq_isSome, ← hd, mapLookup_erase]
    rfl

/-- Witness for C1: add `"eth"`, then delete path id `"eTh"`. -/
theorem AddGas_then_DeleteGas_any_casing_witness :
    (Manager.AddGas (.ok ⟨"eth", "abc", true, 0⟩) true noFaults (initManager none)).1.status = 200 ∧
    (Manager.DeleteGas "eTh" (Manager.AddGas (.ok ⟨"eth", "abc", true, 0⟩) true noFaults
      (initManager none)).2).1.status = 204 ∧
    mapContains (Manager.DeleteGas "eTh" (Manager.AddGas (.ok ⟨"eth", "abc", true, 0⟩) true noFaults
      (initManager none)).2).2.1.WatchingGas (goToUpper "eth") = false :=
  AddGas_then_DeleteGas_any_casing ⟨"eth", "abc", true, 0⟩ "eTh" (initManager none) true noFaults
    (by decide) (by decide) (by decide) (by decide)

/-- C5: deleting a watched key answers 204, signals the entry's
`Shutdown` before the map removal (event order), decrements the gauge by
exactly one, and removes the key from the map and from the list body; an
immediately repeated delete of the same key answers 404 and leaves the
state unchanged. -/
theorem DeleteGas_success_spec (pid : String) (m : Manager) (g : Gas)
    (h : mapLookup m.WatchingGas (goToUpper pid) = some g) :
    (Manager.DeleteGas pid m).1.status = 204 ∧
    (Manager.DeleteGas pid m).2.2
      = [Event.shutdownSignal g.Network, Event.mapRemove (goToUpper pid)] ∧
    (Manager.DeleteGas pid m).2.1.gasCount = m.gasCount - 1 ∧
    mapLookup (Manager.DeleteGas pid m).2.1.WatchingGas (goToUpper pid) = none ∧
    (listBody (Manager.DeleteGas pid m).2.1).find? (fun p => p.1 = goToUpper pid) = none ∧
    (Manager.DeleteGas pid (Manager.DeleteGas pid m).2.1).1.status = 404 ∧
    (Manager.DeleteGas pid (Manager.DeleteGas pid m).2.1).2.1 = (Manager.DeleteGas pid m).2.1 := by
  rw [DeleteGas_found pid m g h]
  have herase : mapLookup (mapErase m.WatchingGas (goToUpper pid)) (goToUpper pid) = none :=
    mapLookup_erase m.WatchingGas (goToUpper pid)
  refine ⟨rfl, rfl, rfl, herase, ?_, ?_, ?_⟩
  · rw [List.find?_eq_none]
    intro x hx
    simp only [listBody, List.mem_map] at hx
    obtain ⟨p, hp, hpx⟩ := hx
    simp only [mapErase, List.mem_filter] at hp
    subst hpx
    simpa using hp.2
  · rw [DeleteGas_missing _ _ herase]
  · rw [DeleteGas_missing _ _ herase]

/-- Witness for C5: delete `"ETH"` after adding it. -/
theorem DeleteGas_success_spec_witness :
    (Manager.DeleteGas "ETH" ⟨[("ETH", ⟨"ETH", "abc", true, 60⟩)], none, 1⟩).1.status = 204 ∧
    (Manager.DeleteGas "ETH" ⟨[("ETH", ⟨"ETH", "abc", true, 60⟩)], none, 1⟩).2.2
      = [Event.shutdownSignal (Gas.mk "ETH" "abc" true 60).Network,
         Event.mapRemove (goToUpper "ETH")] ∧
    (Manager.DeleteGas "ETH" ⟨[("ETH", ⟨"ETH", "abc", true, 60⟩)], none, 1⟩).2.1.gasCount
      = (Manager.mk [("ETH", ⟨"ETH", "abc", true, 60⟩)] none 1).gasCount - 1 ∧
    mapLookup (Manager.DeleteGas "ETH"
      ⟨[("ETH", ⟨"ETH", "abc", true, 60⟩)], none, 1⟩).2.1.WatchingGas (goToUpper "ETH") = none ∧
    (listBody (Manager.DeleteGas "ETH"
      ⟨[("ETH", ⟨"ETH", "abc", true, 60⟩)], none, 1⟩).2.1).find?
        (fun p => p.1 = goToUpper "ETH") = none ∧
    (Manager.DeleteGas "ETH" (Manager.DeleteGas "ETH"
      ⟨[("ETH", ⟨"ETH", "abc", true, 60⟩)], none, 1⟩).2.1).1.status = 404 ∧
    (Manager.DeleteGas "ETH" (Manager.DeleteGas "ETH"
      ⟨[("ETH", ⟨"ETH", "abc", true, 60⟩)], none, 1⟩).2.1).2.1
      = (Manager.DeleteGas "ETH" ⟨[("ETH", ⟨"ETH", "abc", true, 60⟩)], none, 1⟩).2.1 :=
  DeleteGas_success_spec "ETH" ⟨[("ETH", ⟨"ETH", "abc", true, 60⟩)], none, 1⟩
    ⟨"ETH", "abc", true, 60⟩ (by decide)

end GasReq

namespace GasReq

/-- C9: the create response and the list body never depend on the
credential: two runs that differ only in the token supplied at creation
produce identical create responses and identical list bodies. -/
theorem AddGas_token_noninterference (req : GasRequest) (t1 t2 : String)
    (m : Manager) (enc : Bool) (f : DBFaults)
    (h1 : t1 ≠ "") (h2 : t2 ≠ "") :
    (Manager.AddGas (.ok { req with Token := t1 }) enc f m).1
      = (Manager.AddGas (.ok { req with Token := t2 }) enc f m).1 ∧
    listBody (Manager.AddGas (.ok { req with Token := t1 }) enc f m).2
      = listBody (Manager.AddGas (.ok { req with Token := t2 }) enc f m).2 := by
  by_cases hn : req.Network = ""
  · constructor <;> simp [Manager.AddGas, h1, h2, hn]
  · by_cases hc : mapContains m.WatchingGas (goToUpper req.Network) = true
    · constructor <;> simp [Manager.AddGas, h1, h2, hn, hc]
    · have habs : mapContains m.WatchingGas (goToUpper req.Network) = false := by
        simpa using hc
      rw [AddGas_success _ m enc f (by simpa using h1) (by simpa using hn) (by simpa using habs),
          AddGas_success _ m enc f (by simpa using h2) (by simpa using hn) (by simpa using habs)]
      constructor
      · cases enc <;> simp [encodeGas]
      · rw [listBody_addGas f m _ (by simpa using habs),
            listBody_addGas f m _ (by simpa using habs)]
        simp [encodeGas]

/-- Witness for C9: the same request sent with tokens `"abc"` and `"xyz"`. -/
theorem AddGas_token_noninterference_witness :
    (Manager.AddGas (.ok { GasRequest.mk "eth" "" true 0 with Token := "abc" }) true noFaults
        (initManager none)).1
      = (Manager.AddGas (.ok { GasRequest.mk "eth" "" true 0 with Token := "xyz" }) true noFaults
        (initManager none)).1 ∧
    listBody (Manager.AddGas (.ok { GasRequest.mk "eth" "" true 0 with Token := "abc" }) true
        noFaults (initManager none)).2
      = listBody (Manager.AddGas (.ok { GasRequest.mk "eth" "" true 0 with Token := "xyz" }) true
        noFaults (initManager none)).2 :=
  AddGas_token_noninterference (GasRequest.mk "eth" "" true 0) "abc" "xyz"
    (initManager none) true noFaults (by decide) (by decide)

theorem AddGas_state_cases (rb : ReadBody) (enc : Bool) (f : DBFaults) (m : Manager) :
    (Manager.AddGas rb enc f m).2 = m ∨
    ∃ req : GasRequest,
      mapContains m.WatchingGas (goToUpper req.Network) = false ∧
      (Manager.AddGas rb enc f m).2 =
        m.addGas f (NewGas req.Network req.Token req.Nickname req.Frequency) := by
  cases rb with
  | readErr => exact Or.inl rfl
  | malformed => exact Or.inl rfl
  | ok req =>
    by_cases h1 : req.Token = ""
    · left; simp [Manager.AddGas, h1]
    · by_cases h2 : req.Network = ""
      · left; simp [Manager.AddGas, h1, h2]
      · by_cases h3 : mapContains m.WatchingGas (goToUpper req.Network) = true
        · left; simp [Manager.AddGas, h1, h2, h3]
        · right
          refine ⟨req, by simpa using h3, ?_⟩
          rw [AddGas_success req m enc f h1 h2 (by simpa using h3)]

theorem DeleteGas_state_cases (pid : String) (m : Manager) :
    (Manager.DeleteGas pid m).2.1 = m ∨
    (Manager.DeleteGas pid m).2.1 =
      { m with gasCount := m.gasCount - 1
               WatchingGas := mapErase m.WatchingGas (goToUpper pid) } := by
  cases h : mapLookup m.WatchingGas (goToUpper pid) with
  | none => rw [DeleteGas_missing pid m h]; exact Or.inl rfl
  | some g => rw [DeleteGas_found pid m g h]; exact Or.inr rfl

theorem goodKeys_step (m : Manager) (o : Op) (h : goodKeys m.WatchingGas) :
    goodKeys (step m o).WatchingGas := by
  cases o with
  | list => exact h
  | del pid =>
    show goodKeys (Manager.DeleteGas pid m).2.1.WatchingGas
    rcases DeleteGas_state_cases pid m with hs | hs <;> rw [hs]
    · exact h
    · refine ⟨?_, ?_⟩
      · intro p hp
        exact h.1 p (List.mem_of_mem_filter hp)
      · exact h.2.sublist ((List.filter_sublist _).map _)
  | add rb enc f =>
    show goodKeys (Manager.AddGas rb enc f m).2.WatchingGas
    rcases AddGas_state_cases rb enc f m with hs | ⟨req, habs, hs⟩ <;> rw [hs]
    · exact h
    · rw [addGas_WatchingGas, NewGas_Network,
          mapInsert_not_mem _ _ _ (by simpa using habs)]
      refine ⟨?_, ?_⟩
      · intro p hp
        rcases List.mem_append.mp hp with hp | hp
        · exact h.1 p hp
        · rw [List.mem_singleton.mp hp]
          exact goToUpper_idem req.Network
      · rw [List.map_append, List.nodup_append]
        refine ⟨h.2, List.nodup_singleton _, ?_⟩
        intro a ha hb
        rw [List.mem_singleton.mp hb] at ha
        exact not_mem_keys_of_contains_false _ _ habs ha

theorem Reachable_goodKeys (m : Manager) (h : Reachable m) : goodKeys m.WatchingGas := by
  induction h with
  | init db => exact ⟨by intro p hp; simp [initManager] at hp, by simp [initManager]⟩
  | next m o hm ih => exact goodKeys_step m o ih

/-- C4: in every state reachable by any sequence of add, delete and list
operations from process start, the map keys are pairwise distinct after
upper-case normalization. -/
theorem Reachable_upperKeysNodup (m : Manager) (h : Reachable m) :
    upperKeysNodup m.WatchingGas := by
  obtain ⟨hup, hnd⟩ := Reachable_goodKeys m h
  unfold upperKeysNodup
  have heq : (m.WatchingGas.map fun p => goToUpper p.1) = m.WatchingGas.map Prod.fst :=
    List.map_congr_left fun p hp => hup p hp
  rw [heq]
  exact hnd

/-- Witness for C4: the state after one successful add from the empty
start state. -/
theorem Reachable_upperKeysNodup_witness :
    upperKeysNodup (step (initManager none)
      (Op.add (.ok ⟨"eth", "abc", true, 0⟩) true noFaults)).WatchingGas :=
  Reachable_upperKeysNodup _
    (Reachable.next (initManager none) (Op.add (.ok ⟨"eth", "abc", true, 0⟩) true noFaults)
      (Reachable.init none))

end GasReq

namespace GasReq

/-- C6: the persistence step is an upsert — it looks up the row whose
`network` equals the entry's key, updates it when a row with non-zero id
was found and inserts otherwise — so a store that is well-formed and
holds at most one row for that network value before the step holds at
most one after it, for every fault pattern. -/
theorem persistGas_at_most_one_row (f : DBFaults) (gas : Gas) (db : DBState)
    (hwf : db.wf)
    (hcount : db.rows.countP (fun r => r.network = gas.Network) ≤ 1) :
    (persistGas f gas db).rows.countP (fun r => r.network = gas.Network) ≤ 1 := by
  unfold persistGas
  cases hps : f.prepareSelectErr with
  | true => simpa using hcount
  | false =>
  cases hq : f.queryErr with
  | true => simpa using hcount
  | false =>
  cases hfind : db.rows.find? (fun r => r.network = gas.Network) with
  | none =>
    cases hpw : f.prepareWriteErr with
    | true => simpa [hfind] using hcount
    | false =>
    cases hex : f.execErr with
    | true => simpa [hfind] using hcount
    | false =>
      have hz : db.rows.countP (fun r => r.network = gas.Network) = 0 := by
        rw [List.countP_eq_zero]
        intro a ha
        exact List.find?_eq_none.mp hfind a ha
      simp [hfind, List.countP_append, hz, List.countP_cons]
  | some row =>
    have hmem : row ∈ db.rows := List.mem_of_find?_eq_some hfind
    have hrow : row.network = gas.Network := by
      have hsome := List.find?_some hfind
      simpa using hsome
    have hid : ¬ row.id = 0 := by
      have hpos := (hwf.1 row hmem).1
      omega
    cases hsc : f.scanErr with
    | true => simpa [hfind] using hcount
    | false =>
    cases hpw : f.prepareWriteErr with
    | true => simpa [hfind, hid] using hcount
    | false =>
    cases hex : f.execErr with
    | true => simpa [hfind, hid] using hcount
    | false =>
      simp only [hfind, hid, Bool.false_eq_true, if_false, Bool.false_and,
        Option.isSome_some, Bool.and_true, ne_eq, not_false_eq_true, if_true]
      rw [List.countP_map]
      have hcongr : db.rows.countP
          ((fun r => decide (r.network = gas.Network)) ∘ fun r =>
            if r.id = row.id then
              { r with token := gas.token, nickname := gas.Nickname
                       network := gas.Network, frequency := gas.Frequency }
            else r)
          = db.rows.countP (fun r => r.network = gas.Network) := by
        apply List.countP_congr
        intro x hx
        by_cases hxid : x.id = row.id
        · have hxeq : x = row :=
            List.inj_on_of_nodup_map hwf.2 hx hmem hxid
          subst hxeq
          simp [hxid, hrow]
        · simp [hxid]
      rw [hcongr]
      exact hcount

/-- Witness for C6: a store with a single row for network `"ETH"`,
updated by a new entry for the same network. -/
theorem persistGas_at_most_one_row_witness :
    (persistGas noFaults ⟨"ETH", "t2", false, 30⟩
        ⟨[⟨1, "t", true, "ETH", 60⟩], 2⟩).rows.countP
      (fun r => r.network = (Gas.mk "ETH" "t2" false 30).Network) ≤ 1 :=
  persistGas_at_most_one_row noFaults ⟨"ETH", "t2", false, 30⟩
    ⟨[⟨1, "t", true, "ETH", 60⟩], 2⟩ (by decide) (by decide)

end GasReq
